import Mathlib

/-!
Verification of the task-list CRUD service (`src/main.go`).

The store is a SQLite table `tasks (id INTEGER PRIMARY KEY AUTOINCREMENT,
task TEXT NOT NULL, completed BOOLEAN NOT NULL DEFAULT 0)`; the HTTP
handlers each run one SQL statement under a mutex and re-render a filtered
task list.  We embed the store as a list of task records together with the
AUTOINCREMENT counter, each SQL statement as a pure function on that state,
and each handler (`AddTask`, `CompleteTask`, `DeleteTask`, `EditTask`,
`GetTasks`, `GetCompletedTasks`) as a function from the request method and
the parsed form to the new state and a response.
-/

namespace TodoApp

/-- A row of the `tasks` table (Go struct `Task`: `ID int64`, `Task string`,
`Completed bool`). -/
structure Task where
  ID : Int
  Task : String
  Completed : Bool
deriving DecidableEq, Repr

/-- The persistent store: the rows of the `tasks` table in insertion order,
together with the SQLite AUTOINCREMENT counter (the next id to assign). -/
structure DB where
  tasks : List Task
  nextId : Int
deriving DecidableEq, Repr

/-- `INSERT INTO tasks (task) VALUES (?)`: `completed` takes its default 0
and `id` the next AUTOINCREMENT value. -/
def insertTask (db : DB) (text : String) : DB :=
  ⟨db.tasks ++ [⟨db.nextId, text, false⟩], db.nextId + 1⟩

/-- `UPDATE tasks SET completed = ? WHERE id = ?` with an integer id. -/
def updateCompleted (db : DB) (id : Int) (c : Bool) : DB :=
  ⟨db.tasks.map (fun t => if t.ID = id then ⟨t.ID, t.Task, c⟩ else t), db.nextId⟩

/-- `UPDATE tasks SET task = ? WHERE id = ?` with an integer id. -/
def updateText (db : DB) (id : Int) (s : String) : DB :=
  ⟨db.tasks.map (fun t => if t.ID = id then ⟨t.ID, s, t.Completed⟩ else t), db.nextId⟩

/-- `DELETE FROM tasks WHERE id = ?` with an integer id. -/
def deleteRow (db : DB) (id : Int) : DB :=
  ⟨db.tasks.filter (fun t => decide (t.ID ≠ id)), db.nextId⟩

/-- Reads a run of decimal digits; fails on any non-digit character. -/
def readDigits : List Char → Nat → Option Nat
  | [], acc => some acc
  | c :: cs, acc =>
    if c.isDigit then readDigits cs (acc * 10 + (c.toNat - 48)) else none

/-- The handlers bind the form's `taskId` string directly into `WHERE id = ?`;
SQLite's numeric affinity makes the row match exactly when the string reads
as the row's integer id, and a non-numeric string matches no row. -/
def parseId (s : String) : Option Int :=
  match s.data with
  | [] => none
  | ['-'] => none
  | '-' :: c :: cs => (readDigits (c :: cs) 0).map (fun n => -(n : Int))
  | cs => (readDigits cs 0).map (fun n => (n : Int))

/-- `UPDATE tasks SET completed = ? WHERE id = ?` with the form's string id. -/
def execUpdateCompleted (db : DB) (taskId : String) (c : Bool) : DB :=
  match parseId taskId with
  | some n => updateCompleted db n c
  | none => db

/-- `UPDATE tasks SET task = ? WHERE id = ?` with the form's string id. -/
def execUpdateText (db : DB) (taskId : String) (s : String) : DB :=
  match parseId taskId with
  | some n => updateText db n s
  | none => db

/-- `DELETE FROM tasks WHERE id = ?` with the form's string id. -/
def execDelete (db : DB) (taskId : String) : DB :=
  match parseId taskId with
  | some n => deleteRow db n
  | none => db

/-- The query run by `renderTasks`:
`SELECT id, task, completed FROM tasks WHERE completed = ? ORDER BY id DESC`. -/
def listByStatus (db : DB) (completed : Bool) : List Task :=
  (db.tasks.filter (fun t => t.Completed == completed)).mergeSort
    (fun a b => decide (b.ID ≤ a.ID))

/-- A handler's HTTP response: either `http.Error` with a status code and
message, or the `taskList` template rendered over a query result. -/
inductive Response
  | error (status : Nat) (msg : String)
  | rendered (tasks : List Task)
deriving DecidableEq, Repr

/-- A parsed form body, as key/value pairs. -/
def Form : Type := List (String × String)

/-- Go's `request.FormValue`: the first value for the key, `""` if absent. -/
def formValue (form : Form) (key : String) : String :=
  (((form.find? (fun p => p.1 == key)).map Prod.snd)).getD ""

/-- Handler for `POST /addTask`. -/
def AddTask (method : String) (form : Form) (db : DB) : DB × Response :=
  if method ≠ "POST" then
    (db, .error 405 "Invalid request method")
  else
    let task := formValue form "task"
    if task = "" then
      (db, .error 400 "Task cannot be empty")
    else
      let db' := insertTask db task
      (db', .rendered (listByStatus db' false))

/-- Handler for `/getTasks` (no method check in the code). -/
def GetTasks (_method : String) (db : DB) : Response :=
  .rendered (listByStatus db false)

/-- Handler for `/getCompletedTasks` (no method check in the code). -/
def GetCompletedTasks (_method : String) (db : DB) : Response :=
  .rendered (listByStatus db true)

/-- Handler for `POST /completeTask`. -/
def CompleteTask (method : String) (form : Form) (db : DB) : DB × Response :=
  if method ≠ "POST" then
    (db, .error 405 "Invalid request method")
  else
    let taskID := formValue form "taskId"
    let isCompleted := formValue form "completed"
    let showCompleted := formValue form "showCompleted"
    let completed := isCompleted == "true"
    let db' := execUpdateCompleted db taskID completed
    (db', .rendered (listByStatus db' (showCompleted == "true")))

/-- Handler for `POST /deleteTask`. -/
def DeleteTask (method : String) (form : Form) (db : DB) : DB × Response :=
  if method ≠ "POST" then
    (db, .error 405 "Invalid request method")
  else
    let taskID := formValue form "taskId"
    let showCompleted := formValue form "showCompleted" == "true"
    let db' := execDelete db taskID
    (db', .rendered (listByStatus db' showCompleted))

/-- Handler for `POST /editTask`. -/
def EditTask (method : String) (form : Form) (db : DB) : DB × Response :=
  if method ≠ "POST" then
    (db, .error 405 "Invalid request method")
  else
    let taskID := formValue form "taskId"
    let newTask := formValue form "newTask"
    let showCompleted := formValue form "showCompleted" == "true"
    if newTask = "" then
      (db, .error 400 "Task cannot be empty")
    else
      let db' := execUpdateText db taskID newTask
      (db', .rendered (listByStatus db' showCompleted))

/-- Well-formedness guaranteed by the schema (`id INTEGER PRIMARY KEY
AUTOINCREMENT`): ids are pairwise distinct and below the counter. -/
def WF (db : DB) : Prop :=
  (db.tasks.map Task.ID).Nodup ∧ ∀ t ∈ db.tasks, t.ID < db.nextId

/-! ## Helper lemmas -/

theorem listByStatus_perm (db : DB) (b : Bool) :
    (listByStatus db b).Perm (db.tasks.filter (fun t => t.Completed == b)) :=
  List.mergeSort_perm _ _

theorem mem_listByStatus {db : DB} {b : Bool} {t : Task} :
    t ∈ listByStatus db b ↔ t ∈ db.tasks ∧ t.Completed = b := by
  unfold listByStatus
  rw [List.mem_mergeSort, List.mem_filter]
  simp

theorem listByStatus_sorted (db : DB) (b : Bool)
    (h : (db.tasks.map Task.ID).Nodup) :
    (listByStatus db b).Pairwise (fun a c => c.ID < a.ID) := by
  have hle : (listByStatus db b).Pairwise (fun a c => c.ID ≤ a.ID) := by
    have := @List.sorted_mergeSort Task
      (fun a c : Task => decide (c.ID ≤ a.ID))
      (fun a c d hac hcd => by
        simp only [decide_eq_true_eq] at *
        exact le_trans hcd hac)
      (fun a c => by
        simp only [Bool.or_eq_true, decide_eq_true_eq]
        exact Int.le_total c.ID a.ID)
      (db.tasks.filter (fun t => t.Completed == b))
    exact this.imp (fun hp => by simpa using hp)
  have hne : (listByStatus db b).Pairwise (fun a c : Task => a.ID ≠ c.ID) := by
    have h0 : db.tasks.Pairwise (fun a c : Task => a.ID ≠ c.ID) :=
      List.pairwise_map.mp h
    have h1 := h0.sublist (List.filter_sublist (p := fun t => t.Completed == b) db.tasks)
    exact ((listByStatus_perm db b).pairwise_iff (fun hx => hx.symm)).mpr h1
  exact (hle.and hne).imp (fun hp => lt_of_le_of_ne hp.1 (Ne.symm hp.2))

theorem updateCompleted_absent {db : DB} {id : Int} {c : Bool}
    (h : ∀ t ∈ db.tasks, t.ID ≠ id) : updateCompleted db id c = db := by
  unfold updateCompleted
  have : db.tasks.map (fun t => if t.ID = id then (⟨t.ID, t.Task, c⟩ : Task) else t)
      = db.tasks.map (fun t => t) := by
    exact List.map_congr_left (fun t ht => by simp [h t ht])
  simp [this]

theorem listByStatus_length (db : DB) (b : Bool) :
    (listByStatus db b).length
      = (db.tasks.filter (fun t => t.Completed == b)).length :=
  (listByStatus_perm db b).length_eq

/-! ## Claims -/

/-- C1: for every boolean flag, `listByStatus db b` (the query run by
`renderTasks`) returns exactly the stored records whose `completed` field
equals the flag — a permutation of the filtered store, hence no omission
or duplication — ordered strictly descending by id. -/
theorem C1_listByStatus_exact (db : DB) (b : Bool) (h : WF db) :
    (∀ t : Task, t ∈ listByStatus db b ↔ t ∈ db.tasks ∧ t.Completed = b)
    ∧ (listByStatus db b).Perm (db.tasks.filter (fun t => t.Completed == b))
    ∧ (listByStatus db b).Pairwise (fun a c => c.ID < a.ID) :=
  ⟨fun _ => mem_listByStatus, listByStatus_perm db b, listByStatus_sorted db b h.1⟩

/-- Witness for C1 on a concrete two-row store. -/
theorem C1_listByStatus_exact_witness :
    ((⟨2, "b", false⟩ : Task) ∈
        listByStatus ⟨[⟨1, "a", false⟩, ⟨2, "b", false⟩], 3⟩ false)
    ∧ (listByStatus ⟨[⟨1, "a", false⟩, ⟨2, "b", false⟩], 3⟩ false).Pairwise
        (fun a c => c.ID < a.ID) := by
  have h := C1_listByStatus_exact ⟨[⟨1, "a", false⟩, ⟨2, "b", false⟩], 3⟩ false
    (by constructor <;> decide)
  exact ⟨(h.1 ⟨2, "b", false⟩).mpr (by decide), h.2.2⟩

/-- C2: `AddTask` with a non-empty `task` field appends exactly one record
with the supplied text and `completed = false`, leaving all prior records
unchanged, and the active-subset count grows by exactly 1. -/
theorem C2_create_inserts_one (db : DB) (form : Form)
    (h : formValue form "task" ≠ "") :
    ((AddTask "POST" form db).1).tasks
        = db.tasks ++ [⟨db.nextId, formValue form "task", false⟩]
    ∧ (listByStatus (AddTask "POST" form db).1 false).length
        = (listByStatus db false).length + 1 := by
  have hstep : (AddTask "POST" form db).1 = insertTask db (formValue form "task") := by
    simp [AddTask, h]
  refine ⟨by rw [hstep]; rfl, ?_⟩
  rw [hstep, listByStatus_length, listByStatus_length, insertTask,
    List.filter_append]
  simp

/-- Witness for C2 on a concrete store and form. -/
theorem C2_create_inserts_one_witness :
    ((AddTask "POST" [("task", "x")] ⟨[⟨1, "a", true⟩], 2⟩).1).tasks
        = [⟨1, "a", true⟩, ⟨2, "x", false⟩]
    ∧ (listByStatus (AddTask "POST" [("task", "x")] ⟨[⟨1, "a", true⟩], 2⟩).1
          false).length
        = (listByStatus ⟨[⟨1, "a", true⟩], 2⟩ false).length + 1 := by
  have h := C2_create_inserts_one ⟨[⟨1, "a", true⟩], 2⟩ [("task", "x")] (by decide)
  exact ⟨h.1, h.2⟩

/-- C3: updating the `completed` flag of a present id rewrites exactly that
row to the requested value while keeping its id and text, keeps every other
row unchanged, places the row in the requested subset, and is idempotent. -/
theorem C3_setCompleted_idempotent (db : DB) (id : Int) (c : Bool) (t : Task)
    (ht : t ∈ db.tasks) :
    (t.ID = id → (⟨t.ID, t.Task, c⟩ : Task) ∈ (updateCompleted db id c).tasks)
    ∧ (t.ID ≠ id → t ∈ (updateCompleted db id c).tasks)
    ∧ (t.ID = id → (⟨t.ID, t.Task, c⟩ : Task) ∈ listByStatus (updateCompleted db id c) c)
    ∧ updateCompleted (updateCompleted db id c) id c = updateCompleted db id c := by
  have hmem : ∀ h : t.ID = id,
      (⟨t.ID, t.Task, c⟩ : Task) ∈ (updateCompleted db id c).tasks := by
    intro h
    have := List.mem_map_of_mem
      (fun t : Task => if t.ID = id then (⟨t.ID, t.Task, c⟩ : Task) else t) ht
    simpa [updateCompleted, h] using this
  refine ⟨hmem, ?_, ?_, ?_⟩
  · intro h
    have := List.mem_map_of_mem
      (fun t : Task => if t.ID = id then (⟨t.ID, t.Task, c⟩ : Task) else t) ht
    simpa [updateCompleted, h] using this
  · intro h
    exact mem_listByStatus.mpr ⟨hmem h, rfl⟩
  · unfold updateCompleted
    simp only [List.map_map]
    congr 1
    apply List.map_congr_left
    intro a _
    by_cases h : a.ID = id <;> simp [Function.comp, h]

/-- Witness for C3 on a concrete store. -/
theorem C3_setCompleted_idempotent_witness :
    ((⟨1, "a", true⟩ : Task)
        ∈ listByStatus (updateCompleted ⟨[⟨1, "a", false⟩], 2⟩ 1 true) true)
    ∧ updateCompleted (updateCompleted ⟨[⟨1, "a", false⟩], 2⟩ 1 true) 1 true
        = updateCompleted ⟨[⟨1, "a", false⟩], 2⟩ 1 true := by
  have h := C3_setCompleted_idempotent ⟨[⟨1, "a", false⟩], 2⟩ 1 true
    ⟨1, "a", false⟩ (by decide)
  exact ⟨h.2.2.1 rfl, h.2.2.2⟩

/-- C4: `CompleteTask` on an id matching no stored row leaves the store
unchanged and still answers with a normally rendered fragment for the
requested view, not an error. -/
theorem C4_complete_absent_noop (db : DB) (form : Form)
    (h : ∀ t ∈ db.tasks, parseId (formValue form "taskId") ≠ some t.ID) :
    CompleteTask "POST" form db
      = (db, .rendered (listByStatus db (formValue form "showCompleted" == "true"))) := by
  have hexec : execUpdateCompleted db (formValue form "taskId")
      (formValue form "completed" == "true") = db := by
    unfold execUpdateCompleted
    cases hp : parseId (formValue form "taskId") with
    | none => rfl
    | some n =>
      apply updateCompleted_absent
      intro t ht hid
      exact h t ht (by rw [hp, hid])
  simp [CompleteTask, hexec]

/-- Witness for C4: toggling an id absent from a concrete store. -/
theorem C4_complete_absent_noop_witness :
    CompleteTask "POST" [("taskId", "7"), ("completed", "true")]
        ⟨[⟨1, "a", false⟩], 2⟩
      = (⟨[⟨1, "a", false⟩], 2⟩,
         .rendered (listByStatus ⟨[⟨1, "a", false⟩], 2⟩ false)) := by
  have h := C4_complete_absent_noop ⟨[⟨1, "a", false⟩], 2⟩
    [("taskId", "7"), ("completed", "true")] (by decide)
  simpa using h

/-- C5: `EditTask` with empty `newTask` fails with HTTP 400 and leaves the
store unchanged; with non-empty text and an id matching a stored row it
stores exactly the new text for that row, keeping its id and flag. -/
theorem C5_editTask_validation (db : DB) (form : Form) :
    (formValue form "newTask" = "" →
      EditTask "POST" form db = (db, .error 400 "Task cannot be empty"))
    ∧ (∀ t ∈ db.tasks, formValue form "newTask" ≠ "" →
        parseId (formValue form "taskId") = some t.ID →
        (⟨t.ID, formValue form "newTask", t.Completed⟩ : Task)
          ∈ (EditTask "POST" form db).1.tasks) := by
  constructor
  · intro h
    simp [EditTask, h]
  · intro t ht hne hid
    have hstep : (EditTask "POST" form db).1
        = updateText db t.ID (formValue form "newTask") := by
      simp [EditTask, hne, execUpdateText, hid]
    rw [hstep]
    have := List.mem_map_of_mem
      (fun a : Task => if a.ID = t.ID
        then (⟨a.ID, formValue form "newTask", a.Completed⟩ : Task) else a) ht
    simpa [updateText] using this

/-- Witness for C5 on a concrete store: both the empty-text rejection and a
successful edit. -/
theorem C5_editTask_validation_witness :
    EditTask "POST" [("taskId", "1")] ⟨[⟨1, "a", true⟩], 2⟩
        = (⟨[⟨1, "a", true⟩], 2⟩, .error 400 "Task cannot be empty")
    ∧ (⟨1, "b", true⟩ : Task)
        ∈ (EditTask "POST" [("taskId", "1"), ("newTask", "b")]
            ⟨[⟨1, "a", true⟩], 2⟩).1.tasks := by
  constructor
  · exact (C5_editTask_validation ⟨[⟨1, "a", true⟩], 2⟩ [("taskId", "1")]).1
      (by decide)
  · exact (C5_editTask_validation ⟨[⟨1, "a", true⟩], 2⟩
      [("taskId", "1"), ("newTask", "b")]).2 ⟨1, "a", true⟩ (by decide)
      (by decide) (by decide)

/-- C6: deleting an id removes every row with that id (so it appears in
neither rendered subset), keeps every other row, and a second delete of the
same id is a no-op. -/
theorem C6_delete_idempotent (db : DB) (id : Int) :
    (∀ t ∈ (deleteRow db id).tasks, t.ID ≠ id)
    ∧ (∀ b : Bool, ∀ t ∈ listByStatus (deleteRow db id) b, t.ID ≠ id)
    ∧ deleteRow (deleteRow db id) id = deleteRow db id
    ∧ (∀ t ∈ db.tasks, t.ID ≠ id → t ∈ (deleteRow db id).tasks) := by
  have hmem : ∀ t ∈ (deleteRow db id).tasks, t.ID ≠ id := by
    intro t ht
    have := (List.mem_filter.mp ht).2
    simpa using this
  refine ⟨hmem, ?_, ?_, ?_⟩
  · intro b t ht
    exact hmem t (mem_listByStatus.mp ht).1
  · unfold deleteRow
    simp [List.filter_filter]
  · intro t ht h
    exact List.mem_filter.mpr ⟨ht, by simpa using h⟩

/-- Witness for C6 on a concrete two-row store. -/
theorem C6_delete_idempotent_witness :
    ((⟨2, "b", true⟩ : Task) ∈ (deleteRow ⟨[⟨1, "a", false⟩, ⟨2, "b", true⟩], 3⟩ 1).tasks)
    ∧ deleteRow (deleteRow ⟨[⟨1, "a", false⟩, ⟨2, "b", true⟩], 3⟩ 1) 1
        = deleteRow ⟨[⟨1, "a", false⟩, ⟨2, "b", true⟩], 3⟩ 1 := by
  have h := C6_delete_idempotent ⟨[⟨1, "a", false⟩, ⟨2, "b", true⟩], 3⟩ 1
  exact ⟨h.2.2.2 ⟨2, "b", true⟩ (by decide) (by decide), h.2.2.1⟩

/-- C7: `AddTask` with an empty `task` field answers HTTP 400 with the
message "Task cannot be empty" and leaves the store completely unchanged. -/
theorem C7_add_empty_rejected (db : DB) (form : Form)
    (h : formValue form "task" = "") :
    AddTask "POST" form db = (db, .error 400 "Task cannot be empty") := by
  simp [AddTask, h]

/-- Witness for C7: a form with no `task` field on a concrete store. -/
theorem C7_add_empty_rejected_witness :
    AddTask "POST" ([] : Form) ⟨[⟨1, "a", false⟩], 2⟩
      = (⟨[⟨1, "a", false⟩], 2⟩, .error 400 "Task cannot be empty") :=
  C7_add_empty_rejected ⟨[⟨1, "a", false⟩], 2⟩ ([] : Form) (by decide)

/-- C8 fails for the add action: `AddTask` never reads the caller's
`showCompleted` view filter and always renders the active subset.  Here the
caller viewing the completed list (`showCompleted = "true"`) adds a task and
receives the active fragment, not the completed one. -/
theorem C8_counterexample_add_ignores_filter :
    (AddTask "POST" ([("task", "x"), ("showCompleted", "true")] : Form)
        ⟨[⟨1, "a", true⟩], 2⟩).2
      ≠ Response.rendered
          (listByStatus
            (AddTask "POST" ([("task", "x"), ("showCompleted", "true")] : Form)
              ⟨[⟨1, "a", true⟩], 2⟩).1 true) := by
  intro h
  have h2 : (AddTask "POST" ([("task", "x"), ("showCompleted", "true")] : Form)
        ⟨[⟨1, "a", true⟩], 2⟩).2
      = Response.rendered
          (listByStatus
            (AddTask "POST" ([("task", "x"), ("showCompleted", "true")] : Form)
              ⟨[⟨1, "a", true⟩], 2⟩).1 false) := by
    have hfv : formValue ([("task", "x"), ("showCompleted", "true")] : Form) "task" = "x" := by
      decide
    simp [AddTask, hfv]
  rw [h2, Response.rendered.injEq] at h
  have hm : (⟨1, "a", true⟩ : Task)
      ∈ listByStatus
          (AddTask "POST" ([("task", "x"), ("showCompleted", "true")] : Form)
            ⟨[⟨1, "a", true⟩], 2⟩).1 true :=
    mem_listByStatus.mpr ⟨by decide, rfl⟩
  rw [← h] at hm
  exact absurd (mem_listByStatus.mp hm).2 (by decide)

/-- C8 amended: the complete, delete and edit actions render, on success,
the subset named by the caller-supplied `showCompleted` filter over the
mutated store; the add action always renders the active subset, ignoring
any supplied filter. -/
theorem C8_rerender_after_mutation (form : Form) (db : DB) :
    ((CompleteTask "POST" form db).2
      = .rendered (listByStatus (CompleteTask "POST" form db).1
          (formValue form "showCompleted" == "true")))
    ∧ ((DeleteTask "POST" form db).2
      = .rendered (listByStatus (DeleteTask "POST" form db).1
          (formValue form "showCompleted" == "true")))
    ∧ (formValue form "newTask" ≠ "" →
      (EditTask "POST" form db).2
        = .rendered (listByStatus (EditTask "POST" form db).1
            (formValue form "showCompleted" == "true")))
    ∧ (formValue form "task" ≠ "" →
      (AddTask "POST" form db).2
        = .rendered (listByStatus (AddTask "POST" form db).1 false)) := by
  refine ⟨?_, ?_, ?_, ?_⟩
  · simp [CompleteTask]
  · simp [DeleteTask]
  · intro h
    simp [EditTask, h]
  · intro h
    simp [AddTask, h]

/-- Witness for the amended C8 on a concrete form and store. -/
theorem C8_rerender_after_mutation_witness :
    ((EditTask "POST" ([("taskId", "1"), ("newTask", "y"), ("showCompleted", "true")] : Form)
        ⟨[⟨1, "a", true⟩], 2⟩).2
      = .rendered (listByStatus
          (EditTask "POST" ([("taskId", "1"), ("newTask", "y"), ("showCompleted", "true")] : Form)
            ⟨[⟨1, "a", true⟩], 2⟩).1 true))
    ∧ ((AddTask "POST" ([("task", "x")] : Form) ⟨[⟨1, "a", true⟩], 2⟩).2
      = .rendered (listByStatus
          (AddTask "POST" ([("task", "x")] : Form) ⟨[⟨1, "a", true⟩], 2⟩).1 false)) := by
  constructor
  · have h := (C8_rerender_after_mutation
      ([("taskId", "1"), ("newTask", "y"), ("showCompleted", "true")] : Form)
      ⟨[⟨1, "a", true⟩], 2⟩).2.2.1 (by decide)
    simpa using h
  · exact (C8_rerender_after_mutation ([("task", "x")] : Form)
      ⟨[⟨1, "a", true⟩], 2⟩).2.2.2 (by decide)

/-- C9: on a well-formed store, every operation preserves id uniqueness and
the id bound; insertion assigns the counter value (which no stored row
carries) and bumps the counter; the completed- and text-updates keep the id
sequence exactly; deletion keeps the counter, so a freed id is never handed
out again. -/
theorem C9_id_invariants (db : DB) (text : String) (id : Int) (c : Bool)
    (s : String) (h : WF db) :
    WF (insertTask db text)
    ∧ (∀ t ∈ db.tasks, t.ID ≠ db.nextId)
    ∧ (insertTask db text).nextId = db.nextId + 1
    ∧ WF (updateCompleted db id c)
    ∧ (updateCompleted db id c).tasks.map Task.ID = db.tasks.map Task.ID
    ∧ (updateCompleted db id c).nextId = db.nextId
    ∧ WF (updateText db id s)
    ∧ (updateText db id s).tasks.map Task.ID = db.tasks.map Task.ID
    ∧ (updateText db id s).nextId = db.nextId
    ∧ WF (deleteRow db id)
    ∧ (deleteRow db id).nextId = db.nextId := by
  have hfresh : ∀ t ∈ db.tasks, t.ID ≠ db.nextId := fun t ht => ne_of_lt (h.2 t ht)
  have hids_uc : (updateCompleted db id c).tasks.map Task.ID
      = db.tasks.map Task.ID := by
    unfold updateCompleted
    simp only [List.map_map]
    apply List.map_congr_left
    intro a _
    by_cases hx : a.ID = id <;> simp [Function.comp, hx]
  have hids_ut : (updateText db id s).tasks.map Task.ID
      = db.tasks.map Task.ID := by
    unfold updateText
    simp only [List.map_map]
    apply List.map_congr_left
    intro a _
    by_cases hx : a.ID = id <;> simp [Function.comp, hx]
  have hbound_uc : ∀ t ∈ (updateCompleted db id c).tasks, t.ID < db.nextId := by
    intro t ht
    obtain ⟨a, ha, rfl⟩ := List.mem_map.mp ht
    have hID : (if a.ID = id then (⟨a.ID, a.Task, c⟩ : Task) else a).ID = a.ID := by
      by_cases hx : a.ID = id <;> simp [hx]
    rw [hID]
    exact h.2 a ha
  have hbound_ut : ∀ t ∈ (updateText db id s).tasks, t.ID < db.nextId := by
    intro t ht
    obtain ⟨a, ha, rfl⟩ := List.mem_map.mp ht
    have hID : (if a.ID = id then (⟨a.ID, s, a.Completed⟩ : Task) else a).ID = a.ID := by
      by_cases hx : a.ID = id <;> simp [hx]
    rw [hID]
    exact h.2 a ha
  refine ⟨⟨?_, ?_⟩, hfresh, rfl, ⟨by rw [hids_uc]; exact h.1, hbound_uc⟩,
    hids_uc, rfl, ⟨by rw [hids_ut]; exact h.1, hbound_ut⟩, hids_ut, rfl,
    ⟨?_, ?_⟩, rfl⟩
  · unfold insertTask
    simp only [List.map_append, List.map_cons, List.map_nil]
    rw [List.nodup_append]
    refine ⟨h.1, List.nodup_singleton _, ?_⟩
    intro a ha hb
    simp only [List.mem_singleton] at hb
    obtain ⟨t, ht, rfl⟩ := List.mem_map.mp ha
    exact hfresh t ht hb
  · intro t ht
    simp only [insertTask, List.mem_append, List.mem_singleton] at ht
    rcases ht with ht | rfl
    · exact lt_trans (h.2 t ht) (by simp [insertTask])
    · simp [insertTask]
  · exact List.Pairwise.sublist
      (List.Sublist.map Task.ID (List.filter_sublist db.tasks)) h.1
  · intro t ht
    exact h.2 t (List.mem_filter.mp ht).1

/-- Witness for C9 on a concrete one-row store. -/
theorem C9_id_invariants_witness :
    WF (insertTask ⟨[⟨1, "a", false⟩], 2⟩ "x")
    ∧ WF (deleteRow ⟨[⟨1, "a", false⟩], 2⟩ 1) := by
  have h := C9_id_invariants ⟨[⟨1, "a", false⟩], 2⟩ "x" 1 true "s"
    (by constructor <;> decide)
  exact ⟨h.1, h.2.2.2.2.2.2.2.2.2.1⟩

/-- C10: the two list endpoints serve the corresponding fragment for every
request method, while the four mutating endpoints answer HTTP 405 to any
non-POST method without touching the store. -/
theorem C10_list_endpoints_skip_method_check (m : String) (db : DB) (form : Form) :
    GetTasks m db = .rendered (listByStatus db false)
    ∧ GetCompletedTasks m db = .rendered (listByStatus db true)
    ∧ (m ≠ "POST" →
        AddTask m form db = (db, .error 405 "Invalid request method")
        ∧ CompleteTask m form db = (db, .error 405 "Invalid request method")
        ∧ DeleteTask m form db = (db, .error 405 "Invalid request method")
        ∧ EditTask m form db = (db, .error 405 "Invalid request method")) := by
  refine ⟨rfl, rfl, fun h => ⟨?_, ?_, ?_, ?_⟩⟩
  · simp [AddTask, h]
  · simp [CompleteTask, h]
  · simp [DeleteTask, h]
  · simp [EditTask, h]

/-- Witness for C10: a POST to a list endpoint is served; a GET to a
mutating endpoint gets a 405. -/
theorem C10_list_endpoints_skip_method_check_witness :
    GetTasks "POST" ⟨[], 1⟩ = .rendered (listByStatus ⟨[], 1⟩ false)
    ∧ AddTask "GET" ([] : Form) ⟨[], 1⟩
        = (⟨[], 1⟩, .error 405 "Invalid request method") :=
  ⟨(C10_list_endpoints_skip_method_check "POST" ⟨[], 1⟩ ([] : Form)).1,
   ((C10_list_endpoints_skip_method_check "GET" ⟨[], 1⟩ ([] : Form)).2.2
      (by decide)).1⟩

end TodoApp
